import Mathlib

set_option autoImplicit false

/-
  Verification development for rffmpeg (rffmpeg.py).

  The Python source is shallowly embedded below.  Conventions of the embedding:

  * A statefile is a pair of the owning process id and the list of its lines;
    lines are stored without their trailing newline character (host names never
    contain a newline, so the substring test in bad_host is unaffected).
    The shared state directory is the list of statefiles, in listdir order.
  * The statefile content template (config key state.contents) is fixed to the
    documented line grammar: the formatted content of a line for host h is h
    itself, so an active line is the bare host name and a bad mark is the word
    badhost followed by the host name.
  * Python exceptions are modelled with an error monad (Except PyErr).  The
    places where this source can raise during the logic under study are:
    TypeError at rffmpeg.py line 145 (a list indexed with a dict), IndexError
    in the statefile scan (line.split()[0] / line.split()[1] on short lines),
    NameError for the unbound host_weight variable (line 138), and
    FileNotFoundError from open / os.remove on a missing statefile.
  * The yaml loader produces either a plain string or a mapping for each entry
    of remote.hosts; only the presence of the name and weight keys matters to
    the source (the weight value is never read), so a mapping is modelled by
    its optional name and optional weight fields.
  * Log statements, directory creation (os.makedirs) and the actual process
    execution are omitted; remote/local exit codes are supplied as oracles.
    Statefile names are derived from their owner pid, so the digit-extraction
    in the log calls cannot fail and is not modelled.
-/

namespace Rffmpeg

/-- Python exceptions that the embedded fragment can raise. -/
inductive PyErr where
  | typeError
  | indexError
  | nameError
  | fileNotFoundError
deriving DecidableEq

/-- One entry of the configured remote.hosts list: either a plain string or a
yaml mapping with optional name and weight keys (the weight value itself is
never read by the source, only its presence is tested). -/
inductive HostEntry where
  | plain (s : String)
  | dict (name : Option String) (weight : Option Nat)
deriving DecidableEq

/-- The Python value held by the host_name / target_host variables: a string,
or the host mapping itself when the mapping has no name key (rffmpeg.py line
131 assigns the whole dict in that case). -/
inductive NameVal where
  | str (s : String)
  | dictSelf (name : Option String) (weight : Option Nat)
deriving DecidableEq

/-- Python truthiness test used by line 173 (if not target_host): the empty
string and the empty mapping are falsy, everything else is truthy. -/
def NameVal.isFalsy : NameVal → Bool
  | .str s => s == ""
  | .dictSelf none none => true
  | .dictSelf _ _ => false

/-- The text written for a target when formatting a statefile line (the host
placeholder of state.contents).  A selected host that is a nameless mapping
would be rendered by Python str(); no claim exercises that corner, a marker
string stands for the rendering. -/
def NameVal.asWritten : NameVal → String
  | .str s => s
  | .dictSelf _ _ => "dict-host-entry"

/-- One statefile: the owning process id and the file's lines (newline
stripped). -/
structure StateFile where
  pid : Nat
  lines : List String
deriving DecidableEq

/-- The shared state directory, in listdir order. -/
abbrev Store := List StateFile

/-- The slice of the parsed configuration the embedded fragment reads. -/
structure Config where
  remote_hosts : List HostEntry
deriving DecidableEq

/-- Helper for pySplit: accumulate the current word (reversed) while walking
the characters; whitespace runs separate words and produce no empty fields. -/
def pyWordsAux : List Char → List Char → List (List Char)
  | [], cur => if cur.isEmpty then [] else [cur.reverse]
  | c :: rest, cur =>
    if c.isWhitespace then
      if cur.isEmpty then pyWordsAux rest [] else cur.reverse :: pyWordsAux rest []
    else
      pyWordsAux rest (c :: cur)

/-- Python str.split() with no argument: split on whitespace runs, dropping
empty fields. -/
def pySplit (s : String) : List String :=
  (pyWordsAux s.toList []).map (fun w => String.mk w)

/-- Python re.match with an anchored literal pattern: the string starts with
the given prefix. -/
def pyStartsWith (pre s : String) : Bool :=
  pre.toList.isPrefixOf s.toList

/-- Python substring membership (needle in hay) on strings. -/
def pyInStr (needle hay : String) : Bool :=
  hay.toList.tails.any (fun t => needle.toList.isPrefixOf t)

/-- The in-memory record built for each configured host (rffmpeg.py line
138). -/
structure RHost where
  name : NameVal
  weight : Nat
  count : Nat
  weighted_count : Nat
  bad : Bool
deriving DecidableEq

/-- Scan of a single statefile line (rffmpeg.py lines 119-125): a line whose
start matches badhost contributes its second whitespace token to the bad list,
any other line contributes its first token to the active list; a missing token
raises IndexError. -/
def scanLine (acc : List String × List String) (line : String) :
    Except PyErr (List String × List String) :=
  if pyStartsWith "badhost" line then
    match (pySplit line)[1]? with
    | some h => .ok (acc.1 ++ [h], acc.2)
    | none => .error .indexError
  else
    match (pySplit line)[0]? with
    | some h => .ok (acc.1, acc.2 ++ [h])
    | none => .error .indexError

/-- Scan of the lines of one statefile, in order. -/
def scanFileLines (acc : List String × List String) :
    List String → Except PyErr (List String × List String)
  | [] => .ok acc
  | l :: rest =>
    match scanLine acc l with
    | .ok acc2 => scanFileLines acc2 rest
    | .error e => .error e

/-- Scan of every statefile in the directory (rffmpeg.py lines 113-125),
producing the bad-host and active-host lists. -/
def scanStateFiles (acc : List String × List String) :
    Store → Except PyErr (List String × List String)
  | [] => .ok acc
  | f :: rest =>
    match scanFileLines acc f.lines with
    | .ok acc2 => scanStateFiles acc2 rest
    | .error e => .error e

/-- Resolution of the host_name variable (rffmpeg.py lines 130-133): the
string itself, the name field when present, otherwise the mapping itself. -/
def hostNameOf : HostEntry → NameVal
  | .plain s => .str s
  | .dict (some n) _ => .str n
  | .dict none w => .dictSelf none w

/-- The remote_hosts building loop (rffmpeg.py lines 128-138).  The
host_weight variable is only ever assigned the literal 1 (line 136); when the
entry carries a weight key the variable keeps the value leaked from the
previous iteration, and referencing it while still unbound raises NameError
at the append on line 138.  The accumulator argument threads that leaked
variable. -/
def parseHostsAux (hw : Option Nat) : List HostEntry → Except PyErr (List RHost)
  | [] => .ok []
  | h :: rest =>
    let hw2 : Option Nat :=
      match h with
      | .plain _ => some 1
      | .dict _ none => some 1
      | .dict _ (some _) => hw
    match hw2 with
    | none => .error .nameError
    | some w =>
      match parseHostsAux (some w) rest with
      | .ok tail =>
        .ok ({ name := hostNameOf h, weight := w, count := 0,
               weighted_count := 0, bad := false } :: tail)
      | .error e => .error e

def parse_remote_hosts (hosts : List HostEntry) : Except PyErr (List RHost) :=
  parseHostsAux none hosts

/-- The bad-host removal loop (rffmpeg.py lines 141-145).  When a scanned bad
host equals a configured host's name the source executes
remote_hosts[rhost]["bad"] = True, which indexes a list with a dict and raises
TypeError; when no bad host matches, the list is left unchanged. -/
def applyBadHosts (badHosts : List String) (rhosts : List RHost) :
    Except PyErr (List RHost) :=
  if badHosts.any (fun b => rhosts.any (fun r => decide (r.name = .str b))) then
    .error .typeError
  else
    .ok rhosts

/-- The active-count loop (rffmpeg.py lines 148-154). -/
def setCounts (activeHosts : List String) (rhosts : List RHost) : List RHost :=
  rhosts.map (fun r =>
    { r with count := (activeHosts.filter (fun a => decide (NameVal.str a = r.name))).length })

/-- The reweighting loop (rffmpeg.py lines 157-163): bad hosts are skipped
(their weighted_count keeps its initial 0), otherwise floor division by the
weight when the weight exceeds 1, else the plain count. -/
def reweight (rhosts : List RHost) : List RHost :=
  rhosts.map (fun r =>
    if r.bad then r
    else if r.weight > 1 then { r with weighted_count := r.count / r.weight }
    else { r with weighted_count := r.count })

/-- One step of the selection loop (rffmpeg.py lines 168-171): the running
pair of lowest_count and target_host, updated when strictly lower. -/
def selectStep (acc : Nat × Option NameVal) (r : RHost) : Nat × Option NameVal :=
  if r.weighted_count < acc.1 then (r.weighted_count, some r.name) else acc

/-- The selection loop (rffmpeg.py lines 166-171): lowest_count starts at the
constant 999 and target_host at None. -/
def selectLowest (rhosts : List RHost) : Option NameVal :=
  (rhosts.foldl selectStep (999, none)).2

/-- The fallback test (rffmpeg.py lines 173-175): a falsy target becomes the
localhost sentinel. -/
def resolveTarget (t : Option NameVal) : NameVal :=
  match t with
  | none => .str "localhost"
  | some v => if v.isFalsy then .str "localhost" else v

/-- The first statefile (in listdir order) owned by the given pid. -/
def ownFile (pid : Nat) (files : Store) : Option StateFile :=
  files.find? (fun f => f.pid == pid)

/-- The lines of the invocation's own statefile (empty when absent). -/
def ownLines (pid : Nat) (files : Store) : List String :=
  match ownFile pid files with
  | some f => f.lines
  | none => []

/-- Opening the own statefile in append mode and writing one line (rffmpeg.py
lines 178-179): the file is created when absent. -/
def appendOwnLine (pid : Nat) (line : String) (files : Store) : Store :=
  if files.any (fun f => f.pid == pid) then
    files.map (fun f =>
      if f.pid == pid then { f with lines := f.lines ++ [line] } else f)
  else
    files ++ [{ pid := pid, lines := [line] }]

/-- The statefile-derived host records as they stand after the reweighting
loop: the scan, the remote_hosts construction, the bad-host pass and the
count/reweight passes of get_target_host (rffmpeg.py lines 113-163). -/
def computeRemoteHosts (cfg : Config) (files : Store) : Except PyErr (List RHost) :=
  match scanStateFiles ([], []) files with
  | .error e => .error e
  | .ok acc =>
    match parse_remote_hosts cfg.remote_hosts with
    | .error e => .error e
    | .ok rh =>
      match applyBadHosts acc.1 rh with
      | .error e => .error e
      | .ok rh2 => .ok (reweight (setCounts acc.2 rh2))

/-- get_target_host (rffmpeg.py lines 100-182): scan, build, select, fall back
to localhost when falsy, append the reservation line to the own statefile, and
return the target. -/
def get_target_host (cfg : Config) (pid : Nat) (files : Store) :
    Except PyErr (NameVal × Store) :=
  match computeRemoteHosts cfg files with
  | .error e => .error e
  | .ok rh =>
    let target := resolveTarget (selectLowest rh)
    .ok (target, appendOwnLine pid target.asWritten files)

/-- bad_host (rffmpeg.py lines 185-201): rewrite the own statefile keeping
only the lines that do not contain the target host as a substring, then append
a badhost line for it.  Opening a missing file with mode r+ raises
FileNotFoundError. -/
def bad_host (pid : Nat) (targetHost : String) (files : Store) :
    Except PyErr Store :=
  if files.any (fun f => f.pid == pid) then
    .ok (files.map (fun f =>
      if f.pid == pid then
        { f with lines := f.lines.filter (fun l => !(pyInStr targetHost l))
                            ++ ["badhost " ++ targetHost] }
      else f))
  else
    .error .fileNotFoundError

/-- os.remove on the own statefile: FileNotFoundError when absent. -/
def os_remove (pid : Nat) (files : Store) : Except PyErr Store :=
  if files.any (fun f => f.pid == pid) then
    .ok (files.filter (fun f => !(f.pid == pid)))
  else
    .error .fileNotFoundError

/-- cleanup (rffmpeg.py lines 319-324): remove the own statefile, swallowing
FileNotFoundError. -/
def cleanup (pid : Nat) (files : Store) : Store :=
  match os_remove pid files with
  | .ok fs => fs
  | .error _ => files

/-- The termination signals relevant to the source. -/
inductive Sig where
  | sigterm
  | sigint
  | sigquit
  | sighup
  | sigkill
deriving DecidableEq

/-- The signal-handler table installed by main (rffmpeg.py lines 328-331):
cleanup is registered for SIGTERM, SIGINT, SIGQUIT and SIGHUP. -/
def installedHandlers : Sig → Option (Nat → Store → Store)
  | .sigterm => some cleanup
  | .sigint => some cleanup
  | .sigquit => some cleanup
  | .sighup => some cleanup
  | .sigkill => none

/-- The main process loop followed by the final cleanup (rffmpeg.py lines
344-372).  The exit codes of successive remote runs are supplied as the codes
oracle (one entry consumed per remote execution) and the local fallback's exit
code as localCode; the result is the invocation's exit status paired with the
directory contents after cleanup, or none when the oracle is exhausted before
the loop breaks. -/
def main_loop (cfg : Config) (pid : Nat) (localCode : Int) :
    List Int → Store → Except PyErr (Option (Int × Store))
  | codes, files =>
    match get_target_host cfg pid files with
    | .error e => .error e
    | .ok (target, files2) =>
      if target = .str "localhost" then
        .ok (some (localCode, cleanup pid files2))
      else
        match codes with
        | [] => .ok none
        | rc :: rest =>
          if rc = 255 then
            match target with
            | .str s =>
              match bad_host pid s files2 with
              | .ok files3 => main_loop cfg pid localCode rest files3
              | .error e => .error e
            | .dictSelf _ _ => .error .typeError
          else
            .ok (some (rc, cleanup pid files2))

/-- The output stream chosen for the child's standard output. -/
inductive OutStream where
  | toStdout
  | toStderr
deriving DecidableEq

/-- The special capability-query arguments (rffmpeg.py line 299). -/
def specials : List String := ["-version", "-encoders", "-decoders", "-hwaccels"]

/-- The stdout routing decided by setup_remote_command (rffmpeg.py lines
238-253): stderr by default, stdout in probe mode (program name containing
ffprobe), and stdout when -version, -encoders or -decoders occurs among the
arguments. -/
def setup_remote_command_stdout (argv0 : String) (args : List String) : OutStream :=
  let base := if pyInStr "ffprobe" argv0 then OutStream.toStdout else OutStream.toStderr
  if "-version" ∈ args ∨ "-encoders" ∈ args ∨ "-decoders" ∈ args then
    OutStream.toStdout
  else
    base

/-- The stdout routing decided by run_local_ffmpeg (rffmpeg.py lines 285-301):
stderr by default, stdout in probe mode, and stdout when any of the four
special arguments occurs. -/
def run_local_ffmpeg_stdout (argv0 : String) (args : List String) : OutStream :=
  let base := if pyInStr "ffprobe" argv0 then OutStream.toStdout else OutStream.toStderr
  if args.any (fun item => decide (item ∈ specials)) then
    OutStream.toStdout
  else
    base

/-- A statefile line on which the scan of rffmpeg.py lines 119-125 raises
IndexError: a badhost-prefixed line with no second whitespace token, or any
other line with no token at all (a blank line). -/
def malformedLine (l : String) : Bool :=
  if pyStartsWith "badhost" l then ((pySplit l)[1]?).isNone else ((pySplit l)[0]?).isNone

/-!  Lemmas about the selection loop. -/

theorem selectFold_no_update (l : List RHost) (acc : Nat × Option NameVal)
    (h : ∀ r ∈ l, acc.1 ≤ r.weighted_count) :
    l.foldl selectStep acc = acc := by
  induction l with
  | nil => rfl
  | cons r rest ih =>
    have hr := h r (List.mem_cons_self r rest)
    have hstep : selectStep acc r = acc := by
      simp [selectStep, Nat.not_lt.mpr hr]
    rw [List.foldl_cons, hstep]
    exact ih (fun x hx => h x (List.mem_cons_of_mem r hx))

theorem selectFold_lt (l : List RHost) (c : Nat)
    (h : ∀ r ∈ l, c < r.weighted_count) :
    ∀ acc : Nat × Option NameVal, c < acc.1 → c < (l.foldl selectStep acc).1 := by
  induction l with
  | nil => intro acc hacc; exact hacc
  | cons r rest ih =>
    intro acc hacc
    rw [List.foldl_cons]
    refine ih (fun x hx => h x (List.mem_cons_of_mem r hx)) _ ?_
    by_cases hlt : r.weighted_count < acc.1
    · have hs : selectStep acc r = (r.weighted_count, some r.name) := by
        simp [selectStep, hlt]
      rw [hs]
      exact h r (List.mem_cons_self r rest)
    · have hs : selectStep acc r = acc := by simp [selectStep, hlt]
      rw [hs]; exact hacc

theorem selectFold_mem (l : List RHost) :
    ∀ acc : Nat × Option NameVal,
      (l.foldl selectStep acc).2 = acc.2 ∨
      ∃ r ∈ l, (l.foldl selectStep acc).2 = some r.name ∧ r.weighted_count < acc.1 := by
  induction l with
  | nil => intro acc; exact Or.inl rfl
  | cons r rest ih =>
    intro acc
    rw [List.foldl_cons]
    by_cases hlt : r.weighted_count < acc.1
    · have hs : selectStep acc r = (r.weighted_count, some r.name) := by
        simp [selectStep, hlt]
      rw [hs]
      rcases ih (r.weighted_count, some r.name) with h | ⟨r2, hmem, heq, hlt2⟩
      · exact Or.inr ⟨r, List.mem_cons_self r rest, by rw [h], hlt⟩
      · exact Or.inr ⟨r2, List.mem_cons_of_mem r hmem, heq, lt_trans hlt2 hlt⟩
    · have hs : selectStep acc r = acc := by simp [selectStep, hlt]
      rw [hs]
      rcases ih acc with h | ⟨r2, hmem, heq, hlt2⟩
      · exact Or.inl h
      · exact Or.inr ⟨r2, List.mem_cons_of_mem r hmem, heq, hlt2⟩

/-- Claim C1 (code bug evaluation): with worker a configured and another
invocation's statefile carrying a badhost mark for a, get_target_host raises
TypeError (rffmpeg.py line 145 indexes the remote_hosts list with a dict)
instead of excluding a from eligibility and, all workers being bad, returning
the localhost sentinel. -/
theorem c1_theorem :
    get_target_host ⟨[.plain "a"]⟩ 42 [⟨100, ["badhost a"]⟩] = .error .typeError := rfl

/-- Claim C4 (code bug evaluation): with workers a (weight 1) and b (weight 2)
each holding two active reservations, get_target_host selects a, not b as the
claim states: the configured weight is never assigned to the host_weight
variable (rffmpeg.py lines 135-137 test the weight key but no branch reads its
value), so b keeps the leaked weight 1 and its weighted count is 2, tying with
a, and the tie goes to the earlier entry. -/
theorem c4_theorem :
    get_target_host ⟨[.plain "a", .dict (some "b") (some 2)]⟩ 42
        [⟨100, ["a", "a", "b", "b"]⟩]
      = .ok (.str "a", [⟨100, ["a", "a", "b", "b"]⟩, ⟨42, ["a"]⟩]) := rfl

/-- Claim C3 (counterexample): with workers a and b both at weighted count 0,
get_target_host picks a, the EARLIER entry of the configured list, not b as
the claim states (the comparison on rffmpeg.py line 169 is strict, so later
tied entries never displace the current target). -/
theorem c3_counterexample :
    get_target_host ⟨[.plain "a", .plain "b"]⟩ 42 [] = .ok (.str "a", [⟨42, ["a"]⟩])
      ∧ NameVal.str "a" ≠ NameVal.str "b" :=
  ⟨rfl, by decide⟩

/-- Claim C3 (amended): get_target_host chooses the worker with the minimal
weighted count among those below the 999 initialisation constant, and when two
or more workers tie on the minimal weighted count the one appearing EARLIEST
in the configured list's declared order is chosen: a worker strictly better
than everything before it and at least as good as everything after it is the
selected target. -/
theorem c3_theorem (cfg : Config) (pid : Nat) (files : Store)
    (pre post : List RHost) (r : RHost)
    (hc : computeRemoteHosts cfg files = .ok (pre ++ r :: post))
    (hpre : ∀ x ∈ pre, r.weighted_count < x.weighted_count)
    (hpost : ∀ x ∈ post, r.weighted_count ≤ x.weighted_count)
    (hcap : r.weighted_count < 999)
    (hn : r.name.isFalsy = false) :
    get_target_host cfg pid files
      = .ok (r.name, appendOwnLine pid r.name.asWritten files) := by
  have hsel : selectLowest (pre ++ r :: post) = some r.name := by
    unfold selectLowest
    rw [List.foldl_append, List.foldl_cons]
    have hlt : r.weighted_count < (pre.foldl selectStep (999, none)).1 :=
      selectFold_lt pre r.weighted_count hpre (999, none) hcap
    have hs : selectStep (pre.foldl selectStep (999, none)) r
        = (r.weighted_count, some r.name) := by
      simp [selectStep, hlt]
    rw [hs, selectFold_no_update post _ (fun x hx => hpost x hx)]
  unfold get_target_host
  rw [hc]
  simp [resolveTarget, hsel, hn]

/-- Claim C3 (witness): at the two-worker tie the first worker a is returned,
via the amended theorem. -/
theorem c3_witness :
    get_target_host ⟨[.plain "a", .plain "b"]⟩ 7 [] = .ok (.str "a", [⟨7, ["a"]⟩]) := by
  have h := c3_theorem ⟨[.plain "a", .plain "b"]⟩ 7 [] []
      [⟨.str "b", 1, 0, 0, false⟩] ⟨.str "a", 1, 0, 0, false⟩ rfl
      (by simp) (fun x _ => Nat.zero_le _) (by decide) rfl
  exact h

/-- Claim C9: the selection loop's running minimum starts at the constant 999,
so whenever every parsed worker's weighted count is 999 or more the selection
returns no target and get_target_host falls back to the localhost sentinel
even though configured workers exist; conversely a selected worker always has
weighted count strictly below 999. -/
theorem c9_theorem :
    (∀ (cfg : Config) (pid : Nat) (files : Store) (rh : List RHost),
        computeRemoteHosts cfg files = .ok rh →
        (∀ r ∈ rh, 999 ≤ r.weighted_count) →
        get_target_host cfg pid files
          = .ok (.str "localhost", appendOwnLine pid "localhost" files))
    ∧ (∀ (rh : List RHost) (v : NameVal), selectLowest rh = some v →
        ∃ r ∈ rh, r.name = v ∧ r.weighted_count < 999) := by
  constructor
  · intro cfg pid files rh hc hwc
    have hsel : selectLowest rh = none := by
      unfold selectLowest
      rw [selectFold_no_update rh (999, none) (fun r hr => hwc r hr)]
    unfold get_target_host
    rw [hc]
    simp [resolveTarget, hsel, NameVal.asWritten]
  · intro rh v hsel
    unfold selectLowest at hsel
    rcases selectFold_mem rh (999, none) with h | ⟨r, hmem, heq, hlt⟩
    · rw [hsel] at h
      exact absurd h (by simp)
    · have hv : r.name = v := Option.some.inj (heq.symm.trans hsel)
      exact ⟨r, hmem, hv, hlt⟩

/-- Claim C9 (witness): with no configured worker every (vacuous) worker is at
weighted count 999 or more and the localhost sentinel is returned and
recorded. -/
theorem c9_witness :
    get_target_host (⟨[]⟩ : Config) 7 [] = .ok (.str "localhost", [⟨7, ["localhost"]⟩]) := by
  have h := c9_theorem.1 ⟨[]⟩ 7 [] [] rfl (by simp)
  exact h

/-!  The one-step unfolding equation of the controller loop, and lemmas about
cleanup and the per-invocation statefile view. -/

theorem main_loop_eq (cfg : Config) (pid : Nat) (lc : Int) (codes : List Int) (files : Store) :
    main_loop cfg pid lc codes files =
      match get_target_host cfg pid files with
      | .error e => .error e
      | .ok (target, files2) =>
        if target = .str "localhost" then
          .ok (some (lc, cleanup pid files2))
        else
          match codes with
          | [] => .ok none
          | rc :: rest =>
            if rc = 255 then
              match target with
              | .str s =>
                match bad_host pid s files2 with
                | .ok files3 => main_loop cfg pid lc rest files3
                | .error e => .error e
              | .dictSelf _ _ => .error .typeError
            else
              .ok (some (rc, cleanup pid files2)) := by
  conv_lhs => unfold main_loop

theorem bool_eq_false {b : Bool} (h : ¬ b = true) : b = false := by
  cases b
  · rfl
  · exact absurd rfl h

theorem ownFile_eq_none_of_any_false (pid : Nat) (files : Store)
    (h : files.any (fun f => f.pid == pid) = false) : ownFile pid files = none := by
  unfold ownFile
  rw [List.find?_eq_none]
  intro f hf hpf
  have h2 : files.any (fun f => f.pid == pid) = true := List.any_eq_true.mpr ⟨f, hf, hpf⟩
  rw [h] at h2
  exact absurd h2 (by decide)

theorem find?_filter_not (p : StateFile → Bool) (l : List StateFile) :
    (l.filter (fun a => !(p a))).find? p = none := by
  rw [List.find?_eq_none]
  intro x hx
  have hm := List.mem_filter.mp hx
  simp at hm
  simp [hm.2]

theorem ownFile_cleanup (pid : Nat) (files : Store) :
    ownFile pid (cleanup pid files) = none := by
  unfold cleanup os_remove
  by_cases hany : files.any (fun f => f.pid == pid) = true
  · rw [if_pos hany]
    exact find?_filter_not (fun f => f.pid == pid) files
  · rw [if_neg hany]
    exact ownFile_eq_none_of_any_false pid files (bool_eq_false hany)

theorem cleanup_of_ownFile_none (pid : Nat) (files : Store)
    (h : ownFile pid files = none) : cleanup pid files = files := by
  unfold cleanup os_remove
  have hany : files.any (fun f => f.pid == pid) = false := by
    apply bool_eq_false
    intro hc
    rcases List.any_eq_true.mp hc with ⟨f, hf, hpf⟩
    unfold ownFile at h
    exact absurd hpf (List.find?_eq_none.mp h f hf)
  rw [if_neg (by simp [hany])]

theorem main_loop_deletes (cfg : Config) (pid : Nat) (lc : Int) :
    ∀ (codes : List Int) (files : Store) (rc : Int) (fs2 : Store),
      main_loop cfg pid lc codes files = .ok (some (rc, fs2)) → ownFile pid fs2 = none := by
  intro codes
  induction codes with
  | nil =>
    intro files rc fs2 h
    rw [main_loop_eq] at h
    cases hg : get_target_host cfg pid files with
    | error e => rw [hg] at h; simp at h
    | ok tf =>
      obtain ⟨t, files2⟩ := tf
      rw [hg] at h
      dsimp only at h
      by_cases ht : t = NameVal.str "localhost"
      · rw [if_pos ht] at h
        have h4 : cleanup pid files2 = fs2 :=
          congrArg Prod.snd (Option.some.inj (Except.ok.inj h))
        rw [← h4]
        exact ownFile_cleanup pid files2
      · rw [if_neg ht] at h
        simp at h
  | cons rc0 rest ih =>
    intro files rc fs2 h
    rw [main_loop_eq] at h
    cases hg : get_target_host cfg pid files with
    | error e => rw [hg] at h; simp at h
    | ok tf =>
      obtain ⟨t, files2⟩ := tf
      rw [hg] at h
      dsimp only at h
      by_cases ht : t = NameVal.str "localhost"
      · rw [if_pos ht] at h
        have h4 : cleanup pid files2 = fs2 :=
          congrArg Prod.snd (Option.some.inj (Except.ok.inj h))
        rw [← h4]
        exact ownFile_cleanup pid files2
      · rw [if_neg ht] at h
        by_cases h255 : rc0 = 255
        · rw [if_pos h255] at h
          cases t with
          | str s =>
            dsimp only at h
            cases hbh : bad_host pid s files2 with
            | ok files3 =>
              rw [hbh] at h
              exact ih files3 rc fs2 h
            | error e => rw [hbh] at h; simp at h
          | dictSelf a b => dsimp only at h; simp at h
        · rw [if_neg h255] at h
          have h4 : cleanup pid files2 = fs2 :=
            congrArg Prod.snd (Option.some.inj (Except.ok.inj h))
          rw [← h4]
          exact ownFile_cleanup pid files2

theorem ownFile_map_pid (g : StateFile → StateFile) (hg : ∀ f, (g f).pid = f.pid)
    (q : Nat) (files : Store) :
    ownFile q (files.map g) = (ownFile q files).map g := by
  unfold ownFile
  rw [List.find?_map]
  have hpred : ((fun f => f.pid == q) ∘ g) = (fun f : StateFile => f.pid == q) := by
    funext f
    simp [Function.comp, hg f]
  rw [hpred]

theorem ownFile_some_of_any (pid : Nat) (files : Store)
    (h : files.any (fun f => f.pid == pid) = true) :
    ∃ f0, ownFile pid files = some f0 ∧ (f0.pid == pid) = true ∧ f0 ∈ files := by
  cases hf : ownFile pid files with
  | some f0 =>
    have hf2 : List.find? (fun f : StateFile => f.pid == pid) files = some f0 := hf
    exact ⟨f0, rfl,
      List.find?_some (p := fun f : StateFile => f.pid == pid) hf2,
      List.mem_of_find?_eq_some (p := fun f : StateFile => f.pid == pid) hf2⟩
  | none =>
    have hf2 : List.find? (fun f : StateFile => f.pid == pid) files = none := hf
    rcases List.any_eq_true.mp h with ⟨f, hmem, hp⟩
    exact absurd hp (List.find?_eq_none.mp hf2 f hmem)

theorem ownLines_eq (pid : Nat) (files : Store) (f0 : StateFile)
    (h : ownFile pid files = some f0) : ownLines pid files = f0.lines := by
  unfold ownLines
  rw [h]

theorem ownFile_map_own (pid : Nat) (g : StateFile → StateFile)
    (hg : ∀ f, (g f).pid = f.pid) (files : Store) (f0 : StateFile)
    (hf0 : ownFile pid files = some f0) :
    ownFile pid (files.map g) = some (g f0) := by
  rw [ownFile_map_pid g hg pid files, hf0]
  rfl

theorem ownFile_map_keep (pid q : Nat) (g : StateFile → StateFile)
    (hg : ∀ f, (g f).pid = f.pid)
    (hid : ∀ f, (f.pid == pid) = false → g f = f)
    (files : Store) (hqp : q ≠ pid) :
    ownFile q (files.map g) = ownFile q files := by
  rw [ownFile_map_pid g hg q files]
  cases hf : ownFile q files with
  | none => rfl
  | some f0 =>
    have hf2 : List.find? (fun f : StateFile => f.pid == q) files = some f0 := hf
    have hp : (f0.pid == q) = true := List.find?_some (p := fun f : StateFile => f.pid == q) hf2
    have hpq : f0.pid = q := by simpa using hp
    have hnp : (f0.pid == pid) = false := by
      rw [hpq]
      exact beq_eq_false_iff_ne.mpr hqp
    simp [hid f0 hnp]

theorem ownLines_appendOwnLine (pid : Nat) (s : String) (files : Store) :
    ownLines pid (appendOwnLine pid s files) = ownLines pid files ++ [s] := by
  unfold appendOwnLine
  by_cases hany : files.any (fun f => f.pid == pid) = true
  · rw [if_pos hany]
    rcases ownFile_some_of_any pid files hany with ⟨f0, hf0, hp0, _⟩
    have hsome := ownFile_map_own pid
      (fun f => if f.pid == pid then { f with lines := f.lines ++ [s] } else f)
      (fun f => by by_cases hc : (f.pid == pid) = true <;> simp [hc]) files f0 hf0
    rw [ownLines_eq pid _ _ hsome, ownLines_eq pid files f0 hf0]
    simp [hp0]
  · rw [if_neg hany]
    have hnone := ownFile_eq_none_of_any_false pid files (bool_eq_false hany)
    unfold ownLines ownFile
    unfold ownFile at hnone
    rw [List.find?_append, hnone]
    simp [List.find?]

theorem ownFile_appendOwnLine_ne (q pid : Nat) (s : String) (files : Store)
    (hqp : q ≠ pid) :
    ownFile q (appendOwnLine pid s files) = ownFile q files := by
  unfold appendOwnLine
  by_cases hany : files.any (fun f => f.pid == pid) = true
  · rw [if_pos hany]
    exact ownFile_map_keep pid q _
      (fun f => by by_cases hc : (f.pid == pid) = true <;> simp [hc])
      (fun f hf => by simp [hf]) files hqp
  · rw [if_neg hany]
    unfold ownFile
    rw [List.find?_append]
    have hb : (pid == q) = false := beq_eq_false_iff_ne.mpr (Ne.symm hqp)
    cases hf : List.find? (fun f => f.pid == q) files with
    | some f0 => rfl
    | none =>
      have h1 : List.find? (fun f => f.pid == q) [(⟨pid, [s]⟩ : StateFile)] = none := by
        simp [List.find?, hb]
      rw [h1]
      rfl

/-- Claim C2: one iteration of the controller loop after a non-local
selection: a remote exit code other than 255 terminates the loop at once with
that code as the invocation's exit status and no bad-mark (the store is the
selection result, only cleaned up), while a 255 performs exactly one bad_host
call on the selected host and continues with a fresh selection on the
resulting store. -/
theorem c2_theorem (cfg : Config) (pid : Nat) (lc : Int) (files files2 : Store)
    (t : NameVal) (rc : Int) (rest : List Int)
    (hsel : get_target_host cfg pid files = .ok (t, files2))
    (hrem : t ≠ .str "localhost") :
    (rc ≠ 255 → main_loop cfg pid lc (rc :: rest) files = .ok (some (rc, cleanup pid files2)))
    ∧ (rc = 255 → ∀ (s : String) (files3 : Store), t = .str s →
        bad_host pid s files2 = .ok files3 →
        main_loop cfg pid lc (rc :: rest) files = main_loop cfg pid lc rest files3) := by
  constructor
  · intro h255
    rw [main_loop_eq, hsel]
    dsimp only
    rw [if_neg hrem, if_neg h255]
  · intro h255 s files3 hts hbh
    rw [main_loop_eq, hsel]
    dsimp only
    rw [if_neg hrem, if_pos h255, hts]
    dsimp only
    rw [hbh]

/-- Claim C2 (witness): with worker a selected and a remote exit code 7 the
loop ends immediately and the invocation exits with 7. -/
theorem c2_witness :
    main_loop ⟨[.plain "a"]⟩ 1 0 [7] [] = .ok (some (7, [])) := by
  have h := (c2_theorem ⟨[.plain "a"]⟩ 1 0 [] [⟨1, ["a"]⟩] (.str "a") 7 [] rfl (by decide)).1
    (by decide)
  exact h

/-- Claim C6: statefile deletion is idempotent, deleting a missing file is not
an error (the store is returned unchanged, no exception escapes), every
terminating run of the controller loop (normal completion and local fallback
alike) ends with the invocation's own statefile removed, and the cleanup
handler is installed for each of SIGTERM, SIGINT, SIGQUIT and SIGHUP. -/
theorem c6_theorem :
    (∀ (pid : Nat) (files : Store), cleanup pid (cleanup pid files) = cleanup pid files)
    ∧ (∀ (pid : Nat) (files : Store), ownFile pid files = none → cleanup pid files = files)
    ∧ (∀ (cfg : Config) (pid : Nat) (lc : Int) (codes : List Int) (files : Store)
          (rc : Int) (fs2 : Store),
        main_loop cfg pid lc codes files = .ok (some (rc, fs2)) → ownFile pid fs2 = none)
    ∧ (installedHandlers .sigterm = some cleanup ∧ installedHandlers .sigint = some cleanup
        ∧ installedHandlers .sigquit = some cleanup ∧ installedHandlers .sighup = some cleanup) := by
  refine ⟨?_, cleanup_of_ownFile_none, ?_, rfl, rfl, rfl, rfl⟩
  · intro pid files
    exact cleanup_of_ownFile_none pid _ (ownFile_cleanup pid files)
  · intro cfg pid lc codes files rc fs2 h
    exact main_loop_deletes cfg pid lc codes files rc fs2 h

/-- Claim C6 (witness): the conjuncts evaluated at concrete stores, through
the theorem. -/
theorem c6_witness :
    cleanup 5 (cleanup 5 [⟨5, ["x"]⟩]) = cleanup 5 [⟨5, ["x"]⟩]
    ∧ cleanup 5 [⟨6, ["y"]⟩] = [⟨6, ["y"]⟩]
    ∧ ownFile 3 ([] : Store) = none
    ∧ installedHandlers .sigterm = some cleanup := by
  refine ⟨c6_theorem.1 5 [⟨5, ["x"]⟩], c6_theorem.2.1 5 [⟨6, ["y"]⟩] rfl,
    c6_theorem.2.2.1 ⟨[]⟩ 3 0 [] [] 0 [] rfl, c6_theorem.2.2.2.1⟩

/-- Claim C10: every successful call of get_target_host appends exactly one
reservation line, the formatted name of the returned target, to the
invocation's own statefile (creating it when absent) and leaves every other
invocation's statefile unchanged; the localhost fallback is recorded the same
way. -/
theorem c10_theorem (cfg : Config) (pid : Nat) (files : Store) (t : NameVal) (fs2 : Store)
    (h : get_target_host cfg pid files = .ok (t, fs2)) :
    ownLines pid fs2 = ownLines pid files ++ [t.asWritten]
      ∧ ∀ q, q ≠ pid → ownFile q fs2 = ownFile q files := by
  unfold get_target_host at h
  cases hc : computeRemoteHosts cfg files with
  | error e => rw [hc] at h; simp at h
  | ok rh =>
    rw [hc] at h
    dsimp only at h
    have h2 := Except.ok.inj h
    have ht : resolveTarget (selectLowest rh) = t := congrArg Prod.fst h2
    have hfs : appendOwnLine pid (resolveTarget (selectLowest rh)).asWritten files = fs2 :=
      congrArg Prod.snd h2
    subst ht
    subst hfs
    exact ⟨ownLines_appendOwnLine pid _ files,
      fun q hq => ownFile_appendOwnLine_ne q pid _ files hq⟩

/-- Claim C10 (witness): the purely local fallback also publishes its
localhost reservation line, through the theorem. -/
theorem c10_witness :
    ownLines 7 [⟨7, ["localhost"]⟩] = ownLines 7 ([] : Store) ++ ["localhost"] := by
  exact (c10_theorem ⟨[]⟩ 7 [] (.str "localhost") [⟨7, ["localhost"]⟩] rfl).1

/-- Claim C5 (counterexample): marking host a bad drops the line ab as well,
although that line does not name a: bad_host filters by substring containment
(rffmpeg.py line 193), so a line naming a different host whose name contains
the target is not preserved, contradicting the claim that exactly the lines
naming the host are dropped. -/
theorem c5_counterexample :
    bad_host 42 "a" [⟨42, ["ab"]⟩] = .ok [⟨42, ["badhost a"]⟩]
      ∧ ("ab" : String) ≠ "a" := ⟨rfl, by decide⟩

/-- Claim C5 (amended): bad_host rewrites only the invocation's own statefile,
dropping exactly the lines that CONTAIN the host name as a substring (not
exactly those naming it), preserving every line not containing it, appending a
badhost line; no other invocation's file is modified. -/
theorem c5_theorem (pid : Nat) (tgt : String) (files fs2 : Store)
    (hb : bad_host pid tgt files = .ok fs2) :
    ownLines pid fs2
        = (ownLines pid files).filter (fun l => !(pyInStr tgt l)) ++ ["badhost " ++ tgt]
      ∧ (∀ q, q ≠ pid → ownFile q fs2 = ownFile q files)
      ∧ (∀ l ∈ ownLines pid files, pyInStr tgt l = false → l ∈ ownLines pid fs2) := by
  unfold bad_host at hb
  by_cases hany : files.any (fun f => f.pid == pid) = true
  · rw [if_pos hany] at hb
    have hfs2 := Except.ok.inj hb
    subst hfs2
    rcases ownFile_some_of_any pid files hany with ⟨f0, hf0, hp0, _⟩
    have hg : ∀ f : StateFile,
        ((if f.pid == pid then
            { f with lines := f.lines.filter (fun l => !(pyInStr tgt l))
                                ++ ["badhost " ++ tgt] }
          else f) : StateFile).pid = f.pid := by
      intro f
      by_cases hc : (f.pid == pid) = true <;> simp [hc]
    have hsome := ownFile_map_own pid _ hg files f0 hf0
    refine ⟨?_, ?_, ?_⟩
    · rw [ownLines_eq pid _ _ hsome, ownLines_eq pid files f0 hf0, if_pos hp0]
    · intro q hq
      exact ownFile_map_keep pid q _ hg (fun f hf => by simp [hf]) files hq
    · intro l hl hpy
      rw [ownLines_eq pid files f0 hf0] at hl
      rw [ownLines_eq pid _ _ hsome, if_pos hp0]
      exact List.mem_append_left _ (List.mem_filter.mpr ⟨hl, by rw [hpy]; rfl⟩)
  · rw [if_neg hany] at hb
    exact Except.noConfusion hb

/-- Claim C5 (witness): marking a bad in a store of two statefiles rewrites
only the owner's file, through the theorem. -/
theorem c5_witness :
    ownLines 1 [⟨1, ["b", "badhost a"]⟩, ⟨2, ["a"]⟩]
        = (ownLines 1 [⟨1, ["a", "b"]⟩, ⟨2, ["a"]⟩]).filter (fun l => !(pyInStr "a" l))
            ++ ["badhost " ++ "a"]
      ∧ ownFile 2 [⟨1, ["b", "badhost a"]⟩, ⟨2, ["a"]⟩]
          = ownFile 2 [⟨1, ["a", "b"]⟩, ⟨2, ["a"]⟩] := by
  have h := c5_theorem 1 "a" [⟨1, ["a", "b"]⟩, ⟨2, ["a"]⟩]
    [⟨1, ["b", "badhost a"]⟩, ⟨2, ["a"]⟩] rfl
  exact ⟨h.1, h.2.1 2 (by decide)⟩

/-!  Lemmas about the statefile scan and malformed lines. -/

theorem scanLine_malformed (acc : List String × List String) (l : String)
    (h : malformedLine l = true) : scanLine acc l = .error .indexError := by
  unfold malformedLine at h
  unfold scanLine
  by_cases hs : pyStartsWith "badhost" l = true
  · rw [if_pos hs] at h ⊢
    rw [Option.isNone_iff_eq_none.mp h]
  · rw [if_neg hs] at h ⊢
    rw [Option.isNone_iff_eq_none.mp h]

theorem scanLine_error (acc : List String × List String) (l : String) (e : PyErr)
    (h : scanLine acc l = .error e) : e = .indexError := by
  unfold scanLine at h
  by_cases hs : pyStartsWith "badhost" l = true
  · rw [if_pos hs] at h
    cases hx : (pySplit l)[1]? with
    | some v => rw [hx] at h; simp at h
    | none =>
      rw [hx] at h
      have h2 : (Except.error PyErr.indexError : Except PyErr (List String × List String))
          = .error e := h
      exact (Except.error.inj h2).symm
  · rw [if_neg hs] at h
    cases hx : (pySplit l)[0]? with
    | some v => rw [hx] at h; simp at h
    | none =>
      rw [hx] at h
      have h2 : (Except.error PyErr.indexError : Except PyErr (List String × List String))
          = .error e := h
      exact (Except.error.inj h2).symm

theorem scanFileLines_error (ls : List String) :
    ∀ (acc : List String × List String) (e : PyErr),
      scanFileLines acc ls = .error e → e = .indexError := by
  induction ls with
  | nil =>
    intro acc e h
    exact Except.noConfusion h
  | cons l rest ih =>
    intro acc e h
    unfold scanFileLines at h
    cases hx : scanLine acc l with
    | ok acc2 => rw [hx] at h; exact ih acc2 e h
    | error e2 =>
      rw [hx] at h
      have h2 : (Except.error e2 : Except PyErr (List String × List String)) = .error e := h
      rw [← Except.error.inj h2]
      exact scanLine_error acc l e2 hx

theorem scanFileLines_malformed (ls : List String)
    (h : ∃ l ∈ ls, malformedLine l = true) :
    ∀ acc, scanFileLines acc ls = .error .indexError := by
  induction ls with
  | nil => rcases h with ⟨l, hmem, _⟩; exact absurd hmem (List.not_mem_nil l)
  | cons l rest ih =>
    intro acc
    unfold scanFileLines
    rcases h with ⟨l0, hmem, hmal⟩
    rcases List.mem_cons.mp hmem with heq | hr
    · subst heq
      rw [scanLine_malformed acc l0 hmal]
    · cases hx : scanLine acc l with
      | ok acc2 => exact ih ⟨l0, hr, hmal⟩ acc2
      | error e2 =>
        have he : e2 = PyErr.indexError := scanLine_error acc l e2 hx
        subst he
        rfl

theorem scanStateFiles_malformed (files : Store)
    (h : ∃ f ∈ files, ∃ l ∈ f.lines, malformedLine l = true) :
    ∀ acc, scanStateFiles acc files = .error .indexError := by
  induction files with
  | nil => rcases h with ⟨f, hmem, _⟩; exact absurd hmem (List.not_mem_nil f)
  | cons f rest ih =>
    intro acc
    unfold scanStateFiles
    rcases h with ⟨f0, hmem, hl⟩
    cases hx : scanFileLines acc f.lines with
    | error e2 =>
      have he : e2 = PyErr.indexError := scanFileLines_error f.lines acc e2 hx
      subst he
      rfl
    | ok acc2 =>
      rcases List.mem_cons.mp hmem with heq | hr
      · subst heq
        rw [scanFileLines_malformed f0.lines hl acc] at hx
        exact Except.noConfusion hx
      · exact ih ⟨f0, hr, hl⟩ acc2

/-- Claim C7 (counterexample): a statefile holding one blank line makes
get_target_host raise IndexError (line.split()[0] on rffmpeg.py line 124 of
the else branch has no token), so the scan does not ignore blank or malformed
lines as the claim states. -/
theorem c7_counterexample :
    get_target_host ⟨[.plain "a"]⟩ 42 [⟨100, [""]⟩] = .error .indexError := rfl

/-- Claim C7 (amended): the scan performed by get_target_host raises
IndexError whenever any statefile contains a blank line or a badhost line with
no hostname, instead of ignoring such lines; the malformed line contributes to
neither the bad set nor the active counts because the whole call fails. -/
theorem c7_theorem (cfg : Config) (pid : Nat) (files : Store)
    (h : ∃ f ∈ files, ∃ l ∈ f.lines, malformedLine l = true) :
    get_target_host cfg pid files = .error .indexError := by
  unfold get_target_host computeRemoteHosts
  rw [scanStateFiles_malformed files h ([], [])]

/-- Claim C7 (witness): a bare badhost line with no hostname crashes the scan,
through the theorem. -/
theorem c7_witness :
    get_target_host (⟨[]⟩ : Config) 9 [⟨100, ["badhost"]⟩] = .error .indexError := by
  exact c7_theorem ⟨[]⟩ 9 [⟨100, ["badhost"]⟩]
    ⟨⟨100, ["badhost"]⟩, by simp, "badhost", by simp, by decide⟩

/-- Claim C8 (counterexample): in remote primary mode the argument -hwaccels
does NOT force standard output: setup_remote_command checks only -version,
-encoders and -decoders (rffmpeg.py line 252), while the local runner's list
(line 299) includes -hwaccels; the claim that all four specials force standard
output in every mode is false for the remote runner. -/
theorem c8_counterexample :
    setup_remote_command_stdout "/usr/local/bin/ffmpeg" ["-hwaccels"] = .toStderr
      ∧ run_local_ffmpeg_stdout "/usr/local/bin/ffmpeg" ["-hwaccels"] = .toStdout
      ∧ OutStream.toStderr ≠ OutStream.toStdout := ⟨rfl, rfl, by decide⟩

/-- Claim C8 (amended): -version, -encoders and -decoders force the child's
standard output to the caller's standard output in both the remote and the
local runner; -hwaccels does so only in the local runner, and a remote primary
invocation whose arguments contain none of the three remote specials routes
the child's standard output to standard error. -/
theorem c8_theorem :
    (∀ (a0 : String) (args : List String),
        ("-version" ∈ args ∨ "-encoders" ∈ args ∨ "-decoders" ∈ args) →
        setup_remote_command_stdout a0 args = .toStdout
          ∧ run_local_ffmpeg_stdout a0 args = .toStdout)
    ∧ (∀ (a0 : String) (args : List String), "-hwaccels" ∈ args →
        run_local_ffmpeg_stdout a0 args = .toStdout)
    ∧ (∀ (a0 : String) (args : List String), pyInStr "ffprobe" a0 = false →
        "-version" ∉ args → "-encoders" ∉ args → "-decoders" ∉ args →
        setup_remote_command_stdout a0 args = .toStderr) := by
  refine ⟨?_, ?_, ?_⟩
  · intro a0 args h
    constructor
    · unfold setup_remote_command_stdout
      rw [if_pos h]
    · unfold run_local_ffmpeg_stdout
      have hany : args.any (fun item => decide (item ∈ specials)) = true := by
        rcases h with h | h | h
        · exact List.any_eq_true.mpr ⟨_, h, by decide⟩
        · exact List.any_eq_true.mpr ⟨_, h, by decide⟩
        · exact List.any_eq_true.mpr ⟨_, h, by decide⟩
      rw [if_pos hany]
  · intro a0 args h
    unfold run_local_ffmpeg_stdout
    have hany : args.any (fun item => decide (item ∈ specials)) = true :=
      List.any_eq_true.mpr ⟨_, h, by decide⟩
    rw [if_pos hany]
  · intro a0 args hp h1 h2 h3
    unfold setup_remote_command_stdout
    rw [if_neg (fun hor => hor.elim h1 (fun hor2 => hor2.elim h2 h3))]
    simp [hp]

/-- Claim C8 (witness): a remote primary run asking for -hwaccels keeps
standard output on standard error, through the theorem. -/
theorem c8_witness :
    setup_remote_command_stdout "ffmpeg" ["-i", "x.mkv", "-hwaccels"] = .toStderr := by
  exact c8_theorem.2.2 "ffmpeg" ["-i", "x.mkv", "-hwaccels"]
    (by decide) (by decide) (by decide) (by decide)

end Rffmpeg
